import Mathlib

/- Verification model of the onnx-server request-processing core.

Shallow embedding of the C++ sources in src/: the config schema and its
JSON round-trip (src/utils/config.hpp), the Prometheus histogram
(src/metrics/collector.hpp), the session manager's inference call
(src/inference/session_manager.hpp), the model registry
(src/inference/model_registry.hpp), the dynamic batch executor
(src/inference/batch_executor.hpp) and the infer HTTP handler
(src/server/handlers.hpp).

Modelling conventions: C++ double is modelled as Rat; steady_clock
instants are Rat milliseconds; the opaque ONNX Runtime backend is a
function parameter returning Except (an Ort::Exception is the error
case); uint64 counters are Nat (their wrap-around at 2^64 is
unreachable in any run distinguishable here and is not modelled);
the cast static_cast of a nonnegative double to uint64 is modelled
as Rat.floor. -/

namespace OnnxServer

/-- TensorData (session_manager.hpp): name, dtype, shape and the three
data buffers.  Element values are Rat for float buffers. -/
structure TensorData where
  name : String := ""
  dtype : String := "float32"
  shape : List Int := []
  float_data : List Rat := []
  int_data : List Int := []
  raw_data : List Nat := []
deriving Repr, DecidableEq

/-- InferenceRequest (session_manager.hpp).  enqueue_time is a
steady_clock instant in milliseconds. -/
structure InferenceRequest where
  model_name : String := ""
  request_id : String := ""
  inputs : List TensorData := []
  enqueue_time : Rat := 0
deriving Repr, DecidableEq

/-- InferenceResponse (session_manager.hpp). -/
structure InferenceResponse where
  outputs : List TensorData := []
  inference_time_ms : Rat := 0
  queue_time_ms : Rat := 0
  error : String := ""
  success : Bool := true
deriving Repr, DecidableEq

/-- ModelInfo (session_manager.hpp): model metadata discovered at load. -/
structure ModelInfo where
  name : String := ""
  version : String := "1"
  path : String := ""
  loaded_at : String := ""
  input_names : List String := []
  output_names : List String := []
  input_shapes : List (List Int) := []
  output_shapes : List (List Int) := []
  input_types : List String := []
  output_types : List String := []
deriving Repr, DecidableEq

/-- ServerConfig (config.hpp) with its C++ member initializers. -/
structure ServerConfig where
  host : String := "0.0.0.0"
  port : Int := 8080
  threads : Int := 4
deriving Repr, DecidableEq

/-- InferenceConfig (config.hpp) with its C++ member initializers. -/
structure InferenceConfig where
  providers : List String := ["cuda", "cpu"]
  gpu_device_id : Int := 0
  memory_limit_mb : Nat := 4096
  intra_op_threads : Int := 0
  inter_op_threads : Int := 0
  graph_optimization : String := "all"
deriving Repr, DecidableEq

/-- BatchingConfig (config.hpp) with its C++ member initializers. -/
structure BatchingConfig where
  enabled : Bool := true
  max_batch_size : Nat := 32
  min_batch_size : Nat := 1
  max_wait_ms : Nat := 10
  adaptive_sizing : Bool := true
deriving Repr, DecidableEq

/-- ModelsConfig (config.hpp) with its C++ member initializers. -/
structure ModelsConfig where
  directory : String := "./models"
  hot_reload : Bool := true
  watch_interval_ms : Nat := 5000
  preload : List String := []
deriving Repr, DecidableEq

/-- MetricsConfig (config.hpp) with its C++ member initializers. -/
structure MetricsConfig where
  enabled : Bool := true
  path : String := "/metrics"
  latency_buckets : List Rat :=
    [1/1000, 5/1000, 1/100, 25/1000, 5/100, 1/10, 25/100, 5/10, 1]
deriving Repr, DecidableEq

/-- LoggingConfig (config.hpp) with its C++ member initializers. -/
structure LoggingConfig where
  level : String := "info"
  format : String := "json"
  timestamp : Bool := true
deriving Repr, DecidableEq

/-- Config (config.hpp): the six sections. -/
structure Config where
  server : ServerConfig := {}
  inference : InferenceConfig := {}
  batching : BatchingConfig := {}
  models : ModelsConfig := {}
  metrics : MetricsConfig := {}
  logging : LoggingConfig := {}
deriving Repr, DecidableEq

/-- A JSON value as used by nlohmann::json in the sources.  Integral
numbers (number_integer / number_unsigned) are the i case, floating
numbers the q case. -/
inductive Json where
  | null
  | b (v : Bool)
  | i (v : Int)
  | q (v : Rat)
  | s (v : String)
  | arr (items : List Json)
  | obj (fields : List (String × Json))
deriving Repr

/-- Key lookup in a JSON object, as j.contains(k) / j[k]. -/
def Json.lookup (k : String) : Json → Option Json
  | .obj fields => List.lookup k fields
  | _ => none

/-- j.contains(k). -/
def Json.contains (j : Json) (k : String) : Bool :=
  (j.lookup k).isSome

/-- get of a string value; any other type throws in nlohmann. -/
def Json.asString : Json → Except String String
  | .s v => .ok v
  | _ => .error "type_error: not a string"

/-- get of a signed integer value. -/
def Json.asInt : Json → Except String Int
  | .i v => .ok v
  | _ => .error "type_error: not an integer"

/-- get of an unsigned (size_t / uint32_t) value; the C++ conversion of
a negative integral JSON number is modular, modelled with emod. -/
def Json.asNat (w : Nat) : Json → Except String Nat
  | .i v => .ok ((v % 2 ^ w).toNat)
  | _ => .error "type_error: not an integer"

/-- get of a bool value. -/
def Json.asBool : Json → Except String Bool
  | .b v => .ok v
  | _ => .error "type_error: not a boolean"

/-- get of a vector of strings. -/
def Json.asStringList : Json → Except String (List String)
  | .arr items => items.mapM Json.asString
  | _ => .error "type_error: not an array"

/-- get of a vector of doubles; integral JSON numbers convert. -/
def Json.asRatList : Json → Except String (List Rat)
  | .arr items =>
    items.mapM fun x =>
      match x with
      | .q v => .ok v
      | .i v => .ok (v : Rat)
      | _ => .error "type_error: not a number"
  | _ => .error "type_error: not a number array"

/-- The pattern if (s.contains(k)) field = s[k]; applied to one field:
keep the default when the key is absent, convert when present. -/
def Json.field (j : Json) (k : String) (dflt : α)
    (conv : Json → Except String α) : Except String α :=
  match j.lookup k with
  | none => .ok dflt
  | some v => conv v

/-- Config::to_json (config.hpp lines 172-189): only the listed fields
are serialized; intra_op_threads, inter_op_threads,
graph_optimization, min_batch_size, adaptive_sizing,
watch_interval_ms, preload, latency_buckets and the whole logging
section are omitted by the source. -/
def Config.to_json (c : Config) : Json :=
  .obj
    [("server", .obj
        [("host", .s c.server.host),
         ("port", .i c.server.port),
         ("threads", .i c.server.threads)]),
     ("inference", .obj
        [("providers", .arr (c.inference.providers.map .s)),
         ("gpu_device_id", .i c.inference.gpu_device_id),
         ("memory_limit_mb", .i (c.inference.memory_limit_mb : Int))]),
     ("batching", .obj
        [("enabled", .b c.batching.enabled),
         ("max_batch_size", .i (c.batching.max_batch_size : Int)),
         ("max_wait_ms", .i (c.batching.max_wait_ms : Int))]),
     ("models", .obj
        [("directory", .s c.models.directory),
         ("hot_reload", .b c.models.hot_reload)]),
     ("metrics", .obj
        [("enabled", .b c.metrics.enabled),
         ("path", .s c.metrics.path)])]

/-- The server section of Config::parse_json. -/
def parseServerSection (s : Json) (c : ServerConfig) :
    Except String ServerConfig := do
  let host ← s.field "host" c.host Json.asString
  let port ← s.field "port" c.port Json.asInt
  let threads ← s.field "threads" c.threads Json.asInt
  .ok { host := host, port := port, threads := threads }

/-- The inference section of Config::parse_json. -/
def parseInferenceSection (i : Json) (c : InferenceConfig) :
    Except String InferenceConfig := do
  let providers ← i.field "providers" c.providers Json.asStringList
  let gpu_device_id ← i.field "gpu_device_id" c.gpu_device_id Json.asInt
  let memory_limit_mb ← i.field "memory_limit_mb" c.memory_limit_mb
    (Json.asNat 64)
  let intra_op_threads ← i.field "intra_op_threads" c.intra_op_threads
    Json.asInt
  let inter_op_threads ← i.field "inter_op_threads" c.inter_op_threads
    Json.asInt
  let graph_optimization ← i.field "graph_optimization"
    c.graph_optimization Json.asString
  .ok { providers := providers, gpu_device_id := gpu_device_id,
        memory_limit_mb := memory_limit_mb,
        intra_op_threads := intra_op_threads,
        inter_op_threads := inter_op_threads,
        graph_optimization := graph_optimization }

/-- The batching section of Config::parse_json. -/
def parseBatchingSection (bj : Json) (c : BatchingConfig) :
    Except String BatchingConfig := do
  let enabled ← bj.field "enabled" c.enabled Json.asBool
  let max_batch_size ← bj.field "max_batch_size" c.max_batch_size
    (Json.asNat 64)
  let min_batch_size ← bj.field "min_batch_size" c.min_batch_size
    (Json.asNat 64)
  let max_wait_ms ← bj.field "max_wait_ms" c.max_wait_ms (Json.asNat 32)
  let adaptive_sizing ← bj.field "adaptive_sizing" c.adaptive_sizing
    Json.asBool
  .ok { enabled := enabled, max_batch_size := max_batch_size,
        min_batch_size := min_batch_size, max_wait_ms := max_wait_ms,
        adaptive_sizing := adaptive_sizing }

/-- The models section of Config::parse_json. -/
def parseModelsSection (m : Json) (c : ModelsConfig) :
    Except String ModelsConfig := do
  let directory ← m.field "directory" c.directory Json.asString
  let hot_reload ← m.field "hot_reload" c.hot_reload Json.asBool
  let watch_interval_ms ← m.field "watch_interval_ms"
    c.watch_interval_ms (Json.asNat 32)
  let preload ← m.field "preload" c.preload Json.asStringList
  .ok { directory := directory, hot_reload := hot_reload,
        watch_interval_ms := watch_interval_ms, preload := preload }

/-- The metrics section of Config::parse_json. -/
def parseMetricsSection (met : Json) (c : MetricsConfig) :
    Except String MetricsConfig := do
  let enabled ← met.field "enabled" c.enabled Json.asBool
  let path ← met.field "path" c.path Json.asString
  let latency_buckets ← met.field "latency_buckets" c.latency_buckets
    Json.asRatList
  .ok { enabled := enabled, path := path,
        latency_buckets := latency_buckets }

/-- The logging section of Config::parse_json. -/
def parseLoggingSection (l : Json) (c : LoggingConfig) :
    Except String LoggingConfig := do
  let level ← l.field "level" c.level Json.asString
  let format ← l.field "format" c.format Json.asString
  let timestamp ← l.field "timestamp" c.timestamp Json.asBool
  .ok { level := level, format := format, timestamp := timestamp }

/-- Config::parse_json (config.hpp lines 192-270): starts from a
default Config and overwrites each field that is present; a
type-mismatched field throws (the error case). -/
def Config.parse_json (j : Json) : Except String Config := do
  let c : Config := {}
  let server ←
    match j.lookup "server" with
    | some s => parseServerSection s c.server
    | none => .ok c.server
  let inference ←
    match j.lookup "inference" with
    | some i => parseInferenceSection i c.inference
    | none => .ok c.inference
  let batching ←
    match j.lookup "batching" with
    | some bj => parseBatchingSection bj c.batching
    | none => .ok c.batching
  let models ←
    match j.lookup "models" with
    | some m => parseModelsSection m c.models
    | none => .ok c.models
  let metrics ←
    match j.lookup "metrics" with
    | some met => parseMetricsSection met c.metrics
    | none => .ok c.metrics
  let logging ←
    match j.lookup "logging" with
    | some l => parseLoggingSection l c.logging
    | none => .ok c.logging
  .ok { server := server, inference := inference, batching := batching,
        models := models, metrics := metrics, logging := logging }

/-- The round trip of the claimed law: parse(serialize(c)). -/
def Config.roundtrip (c : Config) : Except String Config :=
  Config.parse_json c.to_json

/-- The Histogram of collector.hpp: finite buckets as
(upper_bound, cumulative count) pairs, the appended +Inf bucket's
count, the observation count and the sum in integer nanoseconds. -/
structure Histogram where
  buckets : List (Rat × Nat)
  infCount : Nat
  count : Nat
  sumNanos : Nat
deriving Repr, DecidableEq

/-- The Histogram constructor: one zeroed counter per configured bound
plus the +Inf bucket. -/
def mkHistogram (bounds : List Rat) : Histogram :=
  { buckets := bounds.map fun bound => (bound, 0)
    infCount := 0
    count := 0
    sumNanos := 0 }

/-- static_cast of value * 1e9 to uint64 (truncation; the source only
observes nonnegative latencies, where truncation is the floor). -/
def toNanos (v : Rat) : Nat :=
  (Rat.floor (v * 1000000000)).toNat

/-- Histogram::observe (collector.hpp lines 55-65): add the truncated
nanoseconds to sum, bump count, and bump every bucket whose upper
bound is >= value; the +Inf bucket always matches. -/
def Histogram.observe (h : Histogram) (v : Rat) : Histogram :=
  { buckets := h.buckets.map fun bc => if v ≤ bc.1 then (bc.1, bc.2 + 1) else bc
    infCount := h.infCount + 1
    count := h.count + 1
    sumNanos := h.sumNanos + toNanos v }

/-- A sequence of observe calls. -/
def Histogram.observeAll (h : Histogram) (vs : List Rat) : Histogram :=
  vs.foldl Histogram.observe h

/-- Histogram::sum: the nanosecond accumulator divided back to seconds. -/
def Histogram.sum (h : Histogram) : Rat :=
  (h.sumNanos : Rat) / 1000000000

/-- An input tensor handed to the backend
(Ort::Value::CreateTensor in SessionManager::run_inference). -/
inductive OrtTensor where
  | floatT (data : List Rat) (shape : List Int)
  | intT (data : List Int) (shape : List Int)
deriving Repr, DecidableEq

/-- An output tensor returned by the backend, by element type
(the three decoded cases of SessionManager::run_inference plus the
silently skipped rest). -/
inductive OrtValue where
  | fOut (shape : List Int) (data : List Rat)
  | i64Out (shape : List Int) (data : List Int)
  | i32Out (shape : List Int) (data : List Int)
  | otherOut (shape : List Int)
deriving Repr, DecidableEq

/-- The input-preparation loop of SessionManager::run_inference
(session_manager.hpp lines 165-180): every input's name is appended to
input_names, but a tensor is created only when float_data is nonempty,
or else int_data is nonempty. -/
def prepareInputs : List TensorData → List String × List OrtTensor
  | [] => ([], [])
  | input :: rest =>
    let tail := prepareInputs rest
    (input.name :: tail.1,
      if input.float_data ≠ [] then
        OrtTensor.floatT input.float_data input.shape :: tail.2
      else if input.int_data ≠ [] then
        OrtTensor.intT input.int_data input.shape :: tail.2
      else tail.2)

/-- Decoding of one output tensor (session_manager.hpp lines 194-225):
float32 and int64 copy their buffer, int32 widens into int_data,
any other element type yields a tensor with name and shape only
(dtype stays at the member default "float32"). -/
def decodeOutput (name : String) : OrtValue → TensorData
  | .fOut shape data =>
    { name := name, dtype := "float32", shape := shape, float_data := data }
  | .i64Out shape data =>
    { name := name, dtype := "int64", shape := shape, int_data := data }
  | .i32Out shape data =>
    { name := name, dtype := "int32", shape := shape, int_data := data }
  | .otherOut shape => { name := name, shape := shape }

/-- The output loop: output i is named info.output_names[i] (the source
indexes without a bounds check; a missing name is modelled as ""). -/
def decodeOutputs (outNames : List String) (outs : List OrtValue) :
    List TensorData :=
  outs.enum.map fun p => decodeOutput (outNames.getD p.1 "") p.2

/-- The opaque backend execution, session.Run: takes the session handle,
the input names, the input tensors and the output names; an
Ort::Exception is the error case carrying e.what(). -/
abbrev BackendRun :=
  Nat → List String → List OrtTensor → List String →
    Except String (List OrtValue)

/-- SessionManager::run_inference (session_manager.hpp lines 151-240):
prepare inputs, run, decode outputs; the catch of Ort::Exception turns
a backend failure into a response with success=false and error set.
inference_time_ms is the measured wall time (a parameter here), set on
both paths after the try/catch.  The function is total: no inference
error escapes as an exception. -/
def SessionManager.run_inference (run : BackendRun) (session : Nat)
    (request : InferenceRequest) (info : ModelInfo) (durMs : Rat) :
    InferenceResponse :=
  let prep := prepareInputs request.inputs
  match run session prep.1 prep.2 info.output_names with
  | .ok outs =>
    { outputs := decodeOutputs info.output_names outs
      success := true
      inference_time_ms := durMs }
  | .error e =>
    { outputs := []
      success := false
      error := e
      inference_time_ms := durMs }

/-- ModelEntry (model_registry.hpp): the session handle (opaque, a Nat
id here), the metadata and the file mtime at load. -/
structure ModelEntry where
  session : Nat := 0
  info : ModelInfo := {}
  last_modified : Nat := 0
deriving Repr, DecidableEq

/-- The registry map models_, as an association list keyed by name. -/
abbrev Models := List (String × ModelEntry)

/-- models_[name] = entry: replace the entry under an existing key or
append a new one (std::unordered_map operator[] assignment). -/
def insertModel (name : String) (entry : ModelEntry) : Models → Models
  | [] => [(name, entry)]
  | p :: rest =>
    if p.1 = name then (name, entry) :: rest
    else p :: insertModel name entry rest

/-- SessionManager::load_model as seen by the registry: opening the
artifact either yields a session handle and its ModelInfo or throws
(the error case). -/
abbrev Loader := String → String → Except String (Nat × ModelInfo)

/-- ModelRegistry::load_model (model_registry.hpp lines 175-195): on a
successful load the new entry replaces the mapped one under the write
lock; the catch leaves the map untouched and returns false. -/
def ModelRegistry.load_model (loader : Loader) (mtime : Nat)
    (models : Models) (path : String) (name : String) : Bool × Models :=
  match loader path name with
  | .ok sessionInfo =>
    (true,
     insertModel name
       { session := sessionInfo.1, info := sessionInfo.2,
         last_modified := mtime } models)
  | .error _ => (false, models)

/-- ModelRegistry::reload (model_registry.hpp lines 102-112): rederive
the path from the current entry; false when the name is absent. -/
def ModelRegistry.reload (loader : Loader) (mtime : Nat)
    (models : Models) (name : String) : Bool × Models :=
  match List.lookup name models with
  | none => (false, models)
  | some entry =>
    ModelRegistry.load_model loader mtime models entry.info.path name

/-- ModelRegistry::run_inference (model_registry.hpp lines 117-130):
a ModelNotFound response when the name is absent, otherwise the
session manager call on the stored entry. -/
def ModelRegistry.run_inference (run : BackendRun) (durMs : Rat)
    (models : Models) (request : InferenceRequest) : InferenceResponse :=
  match List.lookup request.model_name models with
  | none =>
    { outputs := []
      success := false
      error := "Model not found: " ++ request.model_name }
  | some entry =>
    SessionManager.run_inference run entry.session request entry.info durMs

/-- PendingRequest (batch_executor.hpp): the request and its enqueue
instant; the single-use promise is represented by the response paired
with the pending request in the executor's output. -/
structure Pending where
  request : InferenceRequest := {}
  enqueue_time : Rat := 0
deriving Repr, DecidableEq

/-- The registry call made by process_batch, which may also throw
(the catch branch of process_batch); the error case carries e.what(). -/
abbrev RunReg := InferenceRequest → Except String InferenceResponse

/-- The wall time each registry call consumes, advancing the clock. -/
abbrev DurFn := InferenceRequest → Rat

/-- The inner per-request loop of BatchExecutor::process_batch
(batch_executor.hpp lines 214-231) over the already-ordered execution
sequence: for each pending request, queue time is now() minus its
enqueue_time sampled immediately before the registry call, the call's
result (or the caught exception as an error response) is completed
into the promise, and the clock advances by the call's duration. -/
def runSeq (runE : RunReg) (dur : DurFn) :
    Rat → List Pending → List (Pending × InferenceResponse)
  | _, [] => []
  | clock, p :: rest =>
    let queueMs := clock - p.enqueue_time
    let resp :=
      match runE p.request with
      | .ok r => { r with queue_time_ms := queueMs }
      | .error e =>
        { outputs := [], success := false, error := e,
          queue_time_ms := queueMs }
    (p, resp) :: runSeq runE dur (clock + dur p.request) rest

/-- The model groups built by process_batch: key and its requests. -/
abbrev Groups := List (String × List Pending)

/-- One step of by_model[req->request.model_name].push_back(req):
append to the group with this key, or start a new group. -/
def insertGrouped (p : Pending) : Groups → Groups
  | [] => [(p.request.model_name, [p])]
  | g :: rest =>
    if g.1 = p.request.model_name then (g.1, g.2 ++ [p]) :: rest
    else g :: insertGrouped p rest

/-- The grouping loop of process_batch (batch_executor.hpp lines
203-208) with groups listed in first-seen key order; the
std::unordered_map's iteration order is applied separately, see
processBatch. -/
def groupByModel (batch : List Pending) : Groups :=
  batch.foldl (fun gs p => insertGrouped p gs) []

/-- BatchExecutor::process_batch (batch_executor.hpp lines 197-243):
group by model_name, then execute group after group, request after
request.  by_model is a std::unordered_map, so the iteration order of
the groups is unspecified: it is taken as the parameter gorder, an
arbitrary permutation of the first-seen grouping (theorems that need
it assume gorder gs is a permutation of gs).  clock is the instant
the dispatch starts (batch_start). -/
def processBatch (gorder : Groups → Groups) (runE : RunReg) (dur : DurFn)
    (clock : Rat) (batch : List Pending) :
    List (Pending × InferenceResponse) :=
  runSeq runE dur clock ((gorder (groupByModel batch)).flatMap fun g => g.2)

/-- BatchExecutor::should_flush_batch (batch_executor.hpp lines
175-185): age of the front item in whole milliseconds
(duration_cast truncates) compared against max_wait_ms. -/
def shouldFlushBatch (maxWaitMs : Nat) (now : Rat) :
    List Pending → Bool
  | [] => false
  | p :: _ => decide ((maxWaitMs : Int) ≤ Rat.floor (now - p.enqueue_time))

/-- The flush decision of the executor loop (batch_executor.hpp lines
148-149): queue reached min_batch_size, or the front item aged out. -/
def flushCond (cfg : BatchingConfig) (now : Rat) (q : List Pending) :
    Bool :=
  decide (cfg.min_batch_size ≤ q.length) || shouldFlushBatch cfg.max_wait_ms now q

/-- One wake-up of the executor loop as seen from the queue: the
submissions that arrived since the previous wake-up and the instant
the flush decision is taken. -/
structure IterStep where
  arrivals : List Pending := []
  now : Rat := 0
deriving Repr, DecidableEq

/-- BatchExecutor::executor_loop (batch_executor.hpp lines 130-170)
over a trace of wake-ups, ending when stop() flips running_: each
iteration detaches min(queue size, max_batch_size) items from the head
when flushing (a nonempty detached batch is dispatched with its
dispatch instant), and on exit the remaining queue is what
drain_remaining hands to process_batch in one call. -/
def executorRun (cfg : BatchingConfig) :
    List Pending → List IterStep → List (Rat × List Pending) × List Pending
  | queue, [] => ([], queue)
  | queue, step :: rest =>
    let q := queue ++ step.arrivals
    if flushCond cfg step.now q then
      let k := min q.length cfg.max_batch_size
      let res := executorRun cfg (q.drop k) rest
      (if (q.take k).isEmpty then res.1 else (step.now, q.take k) :: res.1,
       res.2)
    else
      executorRun cfg q rest

/-- Every batch handed to process_batch over a whole run: the loop's
batches, then the drained remainder (drain_remaining dispatches it as
a single batch when nonempty). -/
def dispatchedBatches (cfg : BatchingConfig) (steps : List IterStep) :
    List (List Pending) :=
  let r := executorRun cfg [] steps
  (r.1.map fun tb => tb.2) ++ (if r.2.isEmpty then [] else [r.2])

/-- All promise completions over a whole enabled-path run: every loop
batch processed at its dispatch instant, then the drained remainder
processed at the stop instant (process_batch of an empty list is
empty, matching the emptiness guard in drain_remaining). -/
def executorFulfillments (gorder : Groups → Groups) (cfg : BatchingConfig)
    (runE : RunReg) (dur : DurFn) (stopTime : Rat)
    (steps : List IterStep) : List (Pending × InferenceResponse) :=
  let r := executorRun cfg [] steps
  (r.1.flatMap fun tb => processBatch gorder runE dur tb.1 tb.2)
    ++ processBatch gorder runE dur stopTime r.2

/-- BatchExecutor::submit with batching disabled (batch_executor.hpp
lines 86-91): run_inference is called synchronously and set_value is
called once, so the returned future is immediately ready with exactly
this one completion. -/
def submitDisabled (runReg : InferenceRequest → InferenceResponse)
    (p : Pending) : List (Pending × InferenceResponse) :=
  [(p, runReg p.request)]

/-- An HTTP response as filled in by a handler: status code and JSON
body. -/
structure HttpResponse where
  status : Nat
  body : Json

/-- The error payload shape used by the handlers. -/
def errorBody (code : Int) (message : String) : Json :=
  .obj [("error", .obj [("code", .i code), ("message", .s message)])]

/-- C truncation of a double to int64 (nlohmann get of int64 from a
float number). -/
def ratTruncInt (v : Rat) : Int :=
  v.num / (v.den : Int)

/-- tensor["shape"].get of vector of int64. -/
def Json.asIntList : Json → Except String (List Int)
  | .arr items =>
    items.mapM fun x =>
      match x with
      | .i v => .ok v
      | .q v => .ok (ratTruncInt v)
      | _ => .error "type_error: not a number"
  | _ => .error "type_error: not an array"

mutual

/-- Handlers::parse_tensor_data (handlers.hpp lines 365-380): flatten
nested arrays, floats are kept, integers are cast, everything is
pushed into float_data. -/
def flattenTensorData : Json → List Rat
  | .arr items => flattenJsonList items
  | .q v => [v]
  | .i v => [(v : Rat)]
  | _ => []

/-- The recursive flattening over the elements of an array. -/
def flattenJsonList : List Json → List Rat
  | [] => []
  | j :: rest => flattenTensorData j ++ flattenJsonList rest

end

/-- nlohmann items() iteration: object fields keyed by name, array
elements keyed by their index, a primitive is a single anonymous
element. -/
def Json.itemsOf : Json → List (String × Json)
  | .obj fields => fields
  | .arr items => items.enum.map fun p => (toString p.1, p.2)
  | j => [("", j)]

/-- The per-input body of handle_infer's parse loop (handlers.hpp lines
277-297): optional shape (a get that can throw), optional nested data
array flattened into float_data, optional dtype string. -/
def parseInputTensor (name : String) (t : Json) :
    Except String TensorData := do
  let shape ←
    match t.lookup "shape" with
    | none => Except.ok ([] : List Int)
    | some v => v.asIntList
  let fdata :=
    match t.lookup "data" with
    | some (Json.arr items) => flattenJsonList items
    | _ => []
  let dtype ←
    match t.lookup "dtype" with
    | none => Except.ok "float32"
    | some v => v.asString
  .ok { name := name, dtype := dtype, shape := shape, float_data := fdata }

/-- The whole input-parsing loop over request_body["inputs"].items(). -/
def parseRequestInputs (inputsJson : Json) :
    Except String (List TensorData) :=
  inputsJson.itemsOf.mapM fun kv => parseInputTensor kv.1 kv.2

/-- Building the InferenceRequest inside handle_infer (model name from
the route capture, request id from the context). -/
def buildInferenceRequest (model_name : String) (request_id : String)
    (inputsJson : Json) : Except String InferenceRequest := do
  let inputs ← parseRequestInputs inputsJson
  .ok { model_name := model_name, request_id := request_id,
        inputs := inputs, enqueue_time := 0 }

/-- The response body handle_infer builds from an InferenceResponse
(handlers.hpp lines 308-321): outputs keyed by name with int_data used
only when float_data is empty, and a timing object only when
inference_time_ms > 0.  Note that it is built the same way whether or
not the response has success=true. -/
def inferSuccessBody (model_name : String) (res : InferenceResponse) :
    Json :=
  let outs : List (String × Json) := res.outputs.map fun o =>
    (o.name, Json.obj
      [("shape", .arr (o.shape.map Json.i)),
       ("data",
        if o.float_data.isEmpty then .arr (o.int_data.map Json.i)
        else .arr (o.float_data.map Json.q))])
  let base : List (String × Json) :=
    [("model_name", .s model_name), ("outputs", .obj outs)]
  .obj
    (if 0 < res.inference_time_ms then
      base ++
        [("timing", .obj
           [("inference_ms", .q res.inference_time_ms),
            ("queue_ms", .q res.queue_time_ms)])]
     else base)

/-- Handlers::handle_infer (handlers.hpp lines 233-339).  body is the
json::parse result of the request body (error = parse threw).  With
batching enabled the handler blocks on the submitted future, whose
value is the registry response with queue_time_ms filled in by
process_batch (queueMs; see the batch executor theorems); with
batching disabled it calls the registry directly.  Either way
infer_res is an InferenceResponse and the handler reaches the
res.status = 200 line: infer_res.success is never consulted.  The 500
branch is the catch, reached only when request building throws; the
metrics side effects are not part of the returned value. -/
def handleInfer (batchingEnabled : Bool) (models : Models)
    (run : BackendRun) (durMs : Rat) (queueMs : Rat)
    (model_name : String) (request_id : String)
    (body : Except String Json) : HttpResponse :=
  match body with
  | .error _ => { status := 400, body := errorBody 400 "Invalid JSON body" }
  | .ok rb =>
    if ¬ rb.contains "inputs" then
      { status := 400, body := errorBody 400 "Missing 'inputs' field" }
    else if (List.lookup model_name models).isNone then
      { status := 404,
        body := errorBody 404 ("Model not found: " ++ model_name) }
    else
      match buildInferenceRequest model_name request_id
          ((rb.lookup "inputs").getD .null) with
      | .error _ =>
        { status := 500, body := errorBody 500 "Inference failed" }
      | .ok infer_req =>
        let infer_res : InferenceResponse :=
          if batchingEnabled then
            { ModelRegistry.run_inference run durMs models infer_req with
                queue_time_ms := queueMs }
          else
            ModelRegistry.run_inference run durMs models infer_req
        { status := 200, body := inferSuccessBody model_name infer_res }

/- ------------------------------------------------------------------ -/
/- Theorems.                                                           -/
/- ------------------------------------------------------------------ -/

lemma observeAll_count (vs : List Rat) : ∀ h : Histogram,
    (h.observeAll vs).count = h.count + vs.length := by
  induction vs with
  | nil => intro h; simp [Histogram.observeAll]
  | cons v rest ih =>
    intro h
    show ((h.observe v).observeAll rest).count = _
    rw [ih]
    simp [Histogram.observe]
    omega

lemma observeAll_infCount (vs : List Rat) : ∀ h : Histogram,
    (h.observeAll vs).infCount = h.infCount + vs.length := by
  induction vs with
  | nil => intro h; simp [Histogram.observeAll]
  | cons v rest ih =>
    intro h
    show ((h.observe v).observeAll rest).infCount = _
    rw [ih]
    simp [Histogram.observe]
    omega

lemma observeAll_sumNanos (vs : List Rat) : ∀ h : Histogram,
    (h.observeAll vs).sumNanos = h.sumNanos + (vs.map toNanos).sum := by
  induction vs with
  | nil => intro h; simp [Histogram.observeAll]
  | cons v rest ih =>
    intro h
    show ((h.observe v).observeAll rest).sumNanos = _
    rw [ih]
    simp [Histogram.observe]
    omega

lemma observeAll_buckets (vs : List Rat) : ∀ h : Histogram,
    (h.observeAll vs).buckets = h.buckets.map fun bc =>
      (bc.1, bc.2 + List.countP (fun v => decide (v ≤ bc.1)) vs) := by
  induction vs with
  | nil => intro h; simp [Histogram.observeAll]
  | cons v rest ih =>
    intro h
    show ((h.observe v).observeAll rest).buckets = _
    rw [ih]
    simp only [Histogram.observe, List.map_map]
    congr 1
    funext bc
    by_cases hv : v ≤ bc.1
    · simp [Function.comp, hv, List.countP_cons]
      omega
    · simp [Function.comp, hv, List.countP_cons]

/-- Claim C6 (corrected): after observing v1..vn, count equals n, the
+Inf bucket count equals n, and each configured bucket's cumulative
count equals the number of observed values at or below its bound — but
sum() is the per-observation truncation to integer nanoseconds divided
back, not the exact total (see the counterexample).  The nonnegativity
hypothesis is the definedness condition of the C++ cast of value * 1e9
to uint64. -/
theorem histogram_observe_laws (bounds vs : List Rat)
    (hnn : ∀ v ∈ vs, 0 ≤ v) :
    (Histogram.observeAll (mkHistogram bounds) vs).count = vs.length ∧
    (Histogram.observeAll (mkHistogram bounds) vs).infCount = vs.length ∧
    (Histogram.observeAll (mkHistogram bounds) vs).buckets =
      bounds.map (fun bound =>
        (bound, List.countP (fun v => decide (v ≤ bound)) vs)) ∧
    (Histogram.observeAll (mkHistogram bounds) vs).sum =
      ((vs.map toNanos).sum : Rat) / 1000000000 := by
  refine ⟨?_, ?_, ?_, ?_⟩
  · rw [observeAll_count]; simp [mkHistogram]
  · rw [observeAll_infCount]; simp [mkHistogram]
  · rw [observeAll_buckets]; simp [mkHistogram, List.map_map, Function.comp]
  · unfold Histogram.sum
    rw [observeAll_sumNanos]
    simp [mkHistogram]

/-- Claim C6 witness: the laws evaluated on a concrete run. -/
theorem histogram_observe_laws_witness :
    (Histogram.observeAll (mkHistogram [1, 5]) [1/2, 3]).count = 2 ∧
    (Histogram.observeAll (mkHistogram [1, 5]) [1/2, 3]).infCount = 2 ∧
    (Histogram.observeAll (mkHistogram [1, 5]) [1/2, 3]).buckets =
      [(1 : Rat), 5].map (fun bound =>
        (bound, List.countP (fun v => decide (v ≤ bound)) [1/2, 3])) ∧
    (Histogram.observeAll (mkHistogram [1, 5]) [1/2, 3]).sum =
      (([(1 : Rat)/2, 3].map toNanos).sum : Rat) / 1000000000 := by
  have h := histogram_observe_laws [1, 5] [1/2, 3]
    (by intro v hv; simp at hv; rcases hv with rfl | rfl <;> norm_num)
  simpa using h

/-- Claim C6 counterexample: sum() is not the exact total of the
observed values: one observation of 1.5 nanoseconds (3/2000000000
seconds) contributes only the truncated 1 nanosecond, so sum() =
1/1000000000 while v1 + ... + vn = 3/2000000000. -/
theorem histogram_sum_truncates_counterexample :
    (Histogram.observeAll (mkHistogram [1]) [3/2000000000]).sum ≠
      List.sum [(3 : Rat)/2000000000] := by
  have hfloor : Rat.floor ((3 : Rat)/2) = 1 := by
    have hcast : ((3 : Int) : Rat) / ((2 : Nat) : Rat) = (3 : Rat)/2 := by
      norm_num
    have h2 : Rat.floor ((3 : Rat)/2) = ⌊((3 : Int) : Rat) / ((2 : Nat) : Rat)⌋ := by
      rw [hcast]
      rfl
    rw [h2, Rat.floor_intCast_div_natCast]
    decide
  have htn : toNanos ((3 : Rat)/2000000000) = 1 := by
    unfold toNanos
    have hmul : (3 : Rat)/2000000000 * 1000000000 = (3 : Rat)/2 := by
      norm_num
    rw [hmul, hfloor]
    rfl
  have hsum : (Histogram.observeAll (mkHistogram [1]) [3/2000000000]).sum =
      (1 : Rat)/1000000000 := by
    unfold Histogram.sum
    have hnanos : (Histogram.observeAll (mkHistogram [1])
        [3/2000000000]).sumNanos = 1 := by
      simp [Histogram.observeAll, Histogram.observe, mkHistogram, htn]
    rw [hnanos]
    norm_num
  rw [hsum]
  norm_num

/-- Claim C7: a failed reload (the artifact load throws) leaves the
registry map — and in particular the stored entry for the model —
exactly as it was. -/
theorem reload_failure_preserves_entry (loader : Loader) (mtime : Nat)
    (models : Models) (name : String) (entry : ModelEntry) (msg : String)
    (hlook : List.lookup name models = some entry)
    (hfail : loader entry.info.path name = .error msg) :
    (ModelRegistry.reload loader mtime models name).2 = models ∧
    List.lookup name (ModelRegistry.reload loader mtime models name).2 =
      some entry := by
  have h2 : ModelRegistry.reload loader mtime models name = (false, models) := by
    simp [ModelRegistry.reload, hlook, ModelRegistry.load_model, hfail]
  rw [h2]
  exact ⟨rfl, hlook⟩

/-- Claim C7 witness: a concrete registry with one model and a loader
that always fails. -/
theorem reload_failure_preserves_entry_witness :
    (ModelRegistry.reload (fun _ _ => .error "open failed") 7
      [("m", {})] "m").2 = [("m", ({} : ModelEntry))] ∧
    List.lookup "m"
      (ModelRegistry.reload (fun _ _ => .error "open failed") 7
        [("m", {})] "m").2 = some ({} : ModelEntry) :=
  reload_failure_preserves_entry (fun _ _ => .error "open failed") 7
    [("m", {})] "m" {} "open failed" (by rfl) (by rfl)

/-- Claim C8: SessionManager::run_inference is a total function of the
backend result; when the backend execution fails with detail e, it
returns (rather than raises) the response with success=false and error
= e, the measured wall time still recorded. -/
theorem run_inference_backend_failure (run : BackendRun) (session : Nat)
    (request : InferenceRequest) (info : ModelInfo) (durMs : Rat)
    (e : String)
    (hfail : run session (prepareInputs request.inputs).1
      (prepareInputs request.inputs).2 info.output_names = .error e) :
    SessionManager.run_inference run session request info durMs =
      { outputs := [], success := false, error := e,
        inference_time_ms := durMs, queue_time_ms := 0 } := by
  simp [SessionManager.run_inference, hfail]

/-- Claim C8 witness: a concrete failing backend. -/
theorem run_inference_backend_failure_witness :
    SessionManager.run_inference (fun _ _ _ _ => .error "boom") 0 {} {} 3 =
      { outputs := [], success := false, error := "boom",
        inference_time_ms := 3, queue_time_ms := 0 } :=
  run_inference_backend_failure (fun _ _ _ _ => .error "boom") 0 {} {} 3
    "boom" (by rfl)

lemma prepareInputs_lengths (inputs : List TensorData) :
    (prepareInputs inputs).1.length = inputs.length ∧
    (prepareInputs inputs).2.length =
      (inputs.filter fun i =>
        decide (i.float_data ≠ []) || decide (i.int_data ≠ [])).length := by
  induction inputs with
  | nil => simp [prepareInputs]
  | cons a rest ih =>
    by_cases hf : a.float_data = [] <;> by_cases hi : a.int_data = [] <;>
      simp [prepareInputs, hf, hi, List.filter_cons, ih.1, ih.2]

/-- Claim C10: the input-preparation loop passes one name per request
input to the backend, but builds one tensor only per input with a
nonempty float_data or int_data buffer; an input with both buffers
empty (e.g. only raw_data populated) contributes a name and no tensor,
so the name list is strictly longer than the tensor list. -/
theorem input_without_data_contributes_no_tensor
    (inputs : List TensorData) (t : TensorData) (ht : t ∈ inputs)
    (hf : t.float_data = []) (hi : t.int_data = []) :
    (prepareInputs inputs).1.length = inputs.length ∧
    (prepareInputs inputs).2.length =
      (inputs.filter fun i =>
        decide (i.float_data ≠ []) || decide (i.int_data ≠ [])).length ∧
    (prepareInputs inputs).2.length < (prepareInputs inputs).1.length := by
  obtain ⟨h1, h2⟩ := prepareInputs_lengths inputs
  refine ⟨h1, h2, ?_⟩
  rw [h1, h2]
  apply List.length_filter_lt_length_iff_exists.mpr
  exact ⟨t, ht, by simp [hf, hi]⟩

/-- Claim C10 witness: a request with a single all-empty input. -/
theorem input_without_data_contributes_no_tensor_witness :
    (prepareInputs [{ name := "x", raw_data := [1] }]).1.length = 1 ∧
    (prepareInputs [{ name := "x", raw_data := [1] }]).2.length =
      ([({ name := "x", raw_data := [1] } : TensorData)].filter fun i =>
        decide (i.float_data ≠ []) || decide (i.int_data ≠ [])).length ∧
    (prepareInputs [{ name := "x", raw_data := [1] }]).2.length <
      (prepareInputs [{ name := "x", raw_data := [1] }]).1.length := by
  have h := input_without_data_contributes_no_tensor
    [{ name := "x", raw_data := [1] }] { name := "x", raw_data := [1] }
    (by simp) (by rfl) (by rfl)
  simpa using h

/-- Claim C1 (the code bug): for a model present in the registry whose
backend execution fails, the registry hands back success=false, yet
handle_infer answers HTTP 200 — the handler never consults
infer_res.success, so the claimed 500-on-backend-failure mapping does
not happen. -/
theorem infer_backend_failure_returns_200 :
    (ModelRegistry.run_inference (fun _ _ _ _ => .error "inference failed")
      1 [("m", {})] { model_name := "m" }).success = false ∧
    (handleInfer false [("m", {})]
      (fun _ _ _ _ => .error "inference failed") 1 0 "m" "req-1"
      (.ok (.obj [("inputs", .obj [])]))).status = 200 :=
  ⟨rfl, rfl⟩

lemma asStringList_map_s (l : List String) :
    Json.asStringList (.arr (l.map Json.s)) = .ok l := by
  induction l with
  | nil => rfl
  | cons a rest ih =>
    have ih2 : List.mapM Json.asString (rest.map Json.s) = .ok rest := ih
    show List.mapM Json.asString ((a :: rest).map Json.s) = _
    rw [List.map_cons, List.mapM_cons, ih2]
    rfl

lemma asNat_coe (w m : Nat) (h : m < 2 ^ w) :
    Json.asNat w (.i (m : Int)) = .ok m := by
  simp only [Json.asNat]
  rw [Int.emod_eq_of_lt (by positivity) (by exact_mod_cast h)]
  simp

/-- Claim C5 (corrected): parse_json inverts to_json on exactly the
fields to_json serializes; every other field of the configuration
comes back as its built-in default, because to_json omits it.  The
bound hypotheses express the C++ widths of the unsigned fields
(size_t, size_t, uint32_t). -/
theorem config_roundtrip_serialized (c : Config)
    (hmem : c.inference.memory_limit_mb < 2 ^ 64)
    (hmbs : c.batching.max_batch_size < 2 ^ 64)
    (hwait : c.batching.max_wait_ms < 2 ^ 32) :
    Config.roundtrip c = .ok
      { server := c.server,
        inference := { providers := c.inference.providers,
                       gpu_device_id := c.inference.gpu_device_id,
                       memory_limit_mb := c.inference.memory_limit_mb },
        batching := { enabled := c.batching.enabled,
                      max_batch_size := c.batching.max_batch_size,
                      max_wait_ms := c.batching.max_wait_ms },
        models := { directory := c.models.directory,
                    hot_reload := c.models.hot_reload },
        metrics := { enabled := c.metrics.enabled,
                     path := c.metrics.path },
        logging := {} } := by
  unfold Config.roundtrip Config.parse_json Config.to_json
  simp [Json.lookup, List.lookup, parseServerSection,
        parseInferenceSection, parseBatchingSection, parseModelsSection,
        parseMetricsSection, Json.field, Json.asString, Json.asInt,
        Json.asBool, asStringList_map_s, asNat_coe _ _ hmem,
        asNat_coe _ _ hmbs, asNat_coe _ _ hwait]
  rfl

/-- Claim C5 witness: the round trip at the default configuration. -/
theorem config_roundtrip_serialized_witness :
    Config.roundtrip {} = .ok
      { server := ({} : Config).server,
        inference :=
          { providers := ({} : Config).inference.providers,
            gpu_device_id := ({} : Config).inference.gpu_device_id,
            memory_limit_mb := ({} : Config).inference.memory_limit_mb },
        batching :=
          { enabled := ({} : Config).batching.enabled,
            max_batch_size := ({} : Config).batching.max_batch_size,
            max_wait_ms := ({} : Config).batching.max_wait_ms },
        models :=
          { directory := ({} : Config).models.directory,
            hot_reload := ({} : Config).models.hot_reload },
        metrics :=
          { enabled := ({} : Config).metrics.enabled,
            path := ({} : Config).metrics.path },
        logging := {} } :=
  config_roundtrip_serialized {} (by norm_num) (by norm_num) (by norm_num)

/-- Claim C5 counterexample: a configuration with a non-default
min_batch_size does not survive the round trip, because to_json never
writes min_batch_size and parse_json then falls back to the default 1. -/
theorem config_roundtrip_counterexample :
    Config.roundtrip { batching := { min_batch_size := 2 } } ≠
      .ok { batching := { min_batch_size := 2 } } := by
  have heval : Config.roundtrip { batching := { min_batch_size := 2 } } =
      .ok ({} : Config) := by rfl
  rw [heval]
  intro h
  injection h with h3
  exact absurd (congrArg (fun c => c.batching.min_batch_size) h3) (by decide)

lemma runSeq_map_fst (runE : RunReg) (dur : DurFn) :
    ∀ (clock : Rat) (l : List Pending),
      (runSeq runE dur clock l).map Prod.fst = l := by
  intro clock l
  induction l generalizing clock with
  | nil => rfl
  | cons p rest ih => simp [runSeq, ih]

lemma insertGrouped_flatMap_perm (p : Pending) (gs : Groups) :
    List.Perm ((insertGrouped p gs).flatMap fun g => g.2)
      ((gs.flatMap fun g => g.2) ++ [p]) := by
  induction gs with
  | nil => simp [insertGrouped]
  | cons g rest ih =>
    by_cases h : g.1 = p.request.model_name
    · simp only [insertGrouped, if_pos h, List.flatMap_cons]
      have e1 : (g.2 ++ [p]) ++ rest.flatMap (fun g => g.2)
          = g.2 ++ ([p] ++ rest.flatMap fun g => g.2) := by
        simp [List.append_assoc]
      have e2 : (g.2 ++ rest.flatMap fun g => g.2) ++ [p]
          = g.2 ++ (rest.flatMap (fun g => g.2) ++ [p]) := by
        simp [List.append_assoc]
      rw [e1, e2]
      exact (List.perm_append_comm).append_left g.2
    · simp only [insertGrouped, if_neg h, List.flatMap_cons]
      have e2 : (g.2 ++ rest.flatMap fun g => g.2) ++ [p]
          = g.2 ++ (rest.flatMap (fun g => g.2) ++ [p]) := by
        simp [List.append_assoc]
      rw [e2]
      exact ih.append_left g.2

lemma foldl_insertGrouped_flatMap_perm (batch : List Pending) :
    ∀ gs : Groups,
      List.Perm
        ((batch.foldl (fun gs p => insertGrouped p gs) gs).flatMap
          fun g => g.2)
        ((gs.flatMap fun g => g.2) ++ batch) := by
  induction batch with
  | nil => intro gs; simp
  | cons p rest ih =>
    intro gs
    refine List.Perm.trans (ih (insertGrouped p gs)) ?_
    refine List.Perm.trans
      ((insertGrouped_flatMap_perm p gs).append_right rest) ?_
    have e : (((gs.flatMap fun g => g.2) ++ [p]) ++ rest)
        = (gs.flatMap fun g => g.2) ++ (p :: rest) := by
      simp [List.append_assoc]
    rw [e]

lemma groupByModel_flatMap_perm (batch : List Pending) :
    List.Perm ((groupByModel batch).flatMap fun g => g.2) batch := by
  have h := foldl_insertGrouped_flatMap_perm batch []
  simpa [groupByModel] using h

lemma processBatch_map_fst (gorder : Groups → Groups) (runE : RunReg)
    (dur : DurFn) (clock : Rat) (batch : List Pending) :
    (processBatch gorder runE dur clock batch).map Prod.fst =
      (gorder (groupByModel batch)).flatMap fun g => g.2 :=
  runSeq_map_fst runE dur clock _

lemma processBatch_fst_perm (gorder : Groups → Groups)
    (Hg : ∀ gs : Groups, List.Perm (gorder gs) gs) (runE : RunReg)
    (dur : DurFn) (clock : Rat) (batch : List Pending) :
    List.Perm ((processBatch gorder runE dur clock batch).map Prod.fst)
      batch := by
  rw [processBatch_map_fst]
  exact ((Hg (groupByModel batch)).flatMap_right _).trans
    (groupByModel_flatMap_perm batch)

lemma executorRun_partition (cfg : BatchingConfig) :
    ∀ (steps : List IterStep) (queue : List Pending),
      ((executorRun cfg queue steps).1.flatMap fun tb => tb.2) ++
        (executorRun cfg queue steps).2
      = queue ++ steps.flatMap fun s => s.arrivals := by
  intro steps
  induction steps with
  | nil => intro queue; simp [executorRun]
  | cons step rest ih =>
    intro queue
    by_cases hf : flushCond cfg step.now (queue ++ step.arrivals)
    · simp only [executorRun, if_pos hf]
      by_cases he : ((queue ++ step.arrivals).take
          (min (queue ++ step.arrivals).length cfg.max_batch_size)).isEmpty
      · rw [if_pos he]
        have hnil : (queue ++ step.arrivals).take
            (min (queue ++ step.arrivals).length cfg.max_batch_size) = [] := by
          simpa using he
        have hdrop : (queue ++ step.arrivals).drop
            (min (queue ++ step.arrivals).length cfg.max_batch_size) =
            queue ++ step.arrivals := by
          rcases List.take_eq_nil_iff.mp hnil with h1 | h1
          · rw [h1, List.drop_zero]
          · rw [h1]
            simp
        rw [hdrop, ih (queue ++ step.arrivals)]
        simp [List.append_assoc]
      · rw [if_neg he, List.flatMap_cons, List.append_assoc,
          ih ((queue ++ step.arrivals).drop
            (min (queue ++ step.arrivals).length cfg.max_batch_size)),
          ← List.append_assoc, List.take_append_drop]
        simp [List.append_assoc]
    · simp only [executorRun, if_neg hf]
      rw [ih (queue ++ step.arrivals)]
      simp [List.append_assoc]

lemma executorRun_batch_le (cfg : BatchingConfig) :
    ∀ (steps : List IterStep) (queue : List Pending) (t : Rat)
      (b : List Pending),
      (t, b) ∈ (executorRun cfg queue steps).1 →
      b.length ≤ cfg.max_batch_size := by
  intro steps
  induction steps with
  | nil => intro queue t b h; simp [executorRun] at h
  | cons step rest ih =>
    intro queue t b h
    by_cases hf : flushCond cfg step.now (queue ++ step.arrivals)
    · simp only [executorRun, if_pos hf] at h
      by_cases he : ((queue ++ step.arrivals).take
          (min (queue ++ step.arrivals).length cfg.max_batch_size)).isEmpty
      · rw [if_pos he] at h
        exact ih _ t b h
      · rw [if_neg he] at h
        rcases List.mem_cons.mp h with h1 | h1
        · have hb : b = (queue ++ step.arrivals).take
              (min (queue ++ step.arrivals).length cfg.max_batch_size) :=
            congrArg Prod.snd h1
          rw [hb]
          exact le_trans (List.length_take_le _ _) (min_le_right _ _)
        · exact ih _ t b h1
    · simp only [executorRun, if_neg hf] at h
      exact ih _ t b h

/-- Claim C2: over a whole enabled-path run — loop dispatches and the
shutdown drain — the completed promises are exactly one per submitted
request (a permutation of the arrivals, the reordering coming only
from model grouping), and the disabled path completes its one future
immediately; so every submit future is fulfilled exactly once. -/
theorem submit_future_fulfilled_once (gorder : Groups → Groups)
    (Hg : ∀ gs : Groups, List.Perm (gorder gs) gs)
    (cfg : BatchingConfig) (runE : RunReg) (dur : DurFn) (stopTime : Rat)
    (steps : List IterStep)
    (runReg : InferenceRequest → InferenceResponse) (p : Pending) :
    List.Perm
      ((executorFulfillments gorder cfg runE dur stopTime steps).map
        Prod.fst)
      (steps.flatMap fun s => s.arrivals) ∧
    (submitDisabled runReg p).map Prod.fst = [p] := by
  refine ⟨?_, rfl⟩
  unfold executorFulfillments
  rw [List.map_append, List.map_flatMap]
  have hpart := executorRun_partition cfg steps []
  simp only [List.nil_append] at hpart
  refine List.Perm.trans
    (List.Perm.append
      (List.Perm.flatMap_left _ fun tb _ =>
        processBatch_fst_perm gorder Hg runE dur tb.1 tb.2)
      (processBatch_fst_perm gorder Hg runE dur stopTime _)) ?_
  rw [hpart]

/-- Claim C2 witness: one submission through one loop iteration, and
one disabled-path submission. -/
theorem submit_future_fulfilled_once_witness :
    List.Perm
      ((executorFulfillments id {} (fun _ => .ok {}) (fun _ => 0) 0
        [{ arrivals := [{}], now := 0 }]).map Prod.fst)
      (([{ arrivals := [{}], now := 0 }] : List IterStep).flatMap
        fun s => s.arrivals) ∧
    (submitDisabled (fun _ => {}) {}).map Prod.fst = [{}] :=
  submit_future_fulfilled_once id (fun gs => List.Perm.refl gs) {}
    (fun _ => .ok {}) (fun _ => 0) 0 [{ arrivals := [{}], now := 0 }]
    (fun _ => {}) {}

lemma runSeq_queue_time (runE : RunReg) (dur : DurFn) :
    ∀ (l : List Pending) (clock : Rat) (i : Nat) (p : Pending),
      l[i]? = some p →
      ((runSeq runE dur clock l)[i]?).map (fun x => x.2.queue_time_ms) =
        some (clock + (((l.take i).map fun q1 => dur q1.request).sum) -
          p.enqueue_time) := by
  intro l
  induction l with
  | nil => intro clock i p h; simp at h
  | cons a rest ih =>
    intro clock i p h
    cases i with
    | zero =>
      simp only [List.getElem?_cons_zero, Option.some.injEq] at h
      subst h
      rcases hr : runE a.request with e | r <;>
        simp [runSeq, hr]
    | succ n =>
      have h2 : rest[n]? = some p := by simpa using h
      simp only [runSeq, List.getElem?_cons_succ]
      rw [ih (clock + dur a.request) n p h2]
      congr 1
      rw [List.take_succ_cons, List.map_cons, List.sum_cons]
      ring

/-- Claim C3 (corrected): the queue_time_ms recorded for the request at
position i of the batch execution order is measured from that
request's own processing start — the dispatch start plus the execution
durations of every request processed before it — not from the common
dispatch start. -/
theorem batch_queue_time_from_processing_start (gorder : Groups → Groups)
    (runE : RunReg) (dur : DurFn) (clock : Rat) (batch : List Pending)
    (i : Nat) (p : Pending)
    (h : ((gorder (groupByModel batch)).flatMap fun g => g.2)[i]? = some p) :
    ((processBatch gorder runE dur clock batch)[i]?).map
        (fun x => x.2.queue_time_ms) =
      some (clock +
        (((((gorder (groupByModel batch)).flatMap fun g => g.2).take i).map
          fun q1 => dur q1.request).sum) - p.enqueue_time) :=
  runSeq_queue_time runE dur _ clock i p h

/-- Claim C3 witness: second request of a two-request batch, dispatch
start 10, first execution taking 5. -/
theorem batch_queue_time_from_processing_start_witness :
    ((processBatch id (fun _ => .ok {}) (fun _ => 5) 10
        [{ request := { model_name := "m" } },
         { request := { model_name := "m" } }])[1]?).map
        (fun x => x.2.queue_time_ms) =
      some (10 +
        (((((id (groupByModel
              [{ request := { model_name := "m" } },
               { request := { model_name := "m" } }])).flatMap
              fun g => g.2).take 1).map
          fun q1 => (fun _ => (5 : Rat)) q1.request).sum) -
        ({ request := { model_name := "m" } } : Pending).enqueue_time) :=
  batch_queue_time_from_processing_start id (fun _ => .ok {}) (fun _ => 5)
    10 [{ request := { model_name := "m" } },
        { request := { model_name := "m" } }] 1
    { request := { model_name := "m" } } (by rfl)

/-- Claim C3 counterexample: with dispatch start 10, both requests
enqueued at 0 and the first execution taking 5 ms, the recorded queue
times are [10, 15]; the second is not dispatch-start minus
enqueue_time = 10. -/
theorem queue_time_not_dispatch_start_counterexample :
    ((processBatch id (fun _ => .ok {}) (fun _ => 5) 10
        [{ request := { model_name := "m" } },
         { request := { model_name := "m" } }]).map
      fun x => x.2.queue_time_ms) = [10, 15] ∧
    ((15 : Rat) ≠ 10 -
      ({ request := { model_name := "m" } } : Pending).enqueue_time) := by
  constructor
  · show [(10 : Rat) - 0, 10 + 5 - 0] = [10, 15]
    norm_num
  · show (15 : Rat) ≠ 10 - 0
    norm_num

/-- Claim C9 (corrected): every batch the executor loop detaches has at
most max_batch_size requests, and the remainder drained at shutdown is
exactly the set of still-queued requests — dispatched by
drain_remaining as one batch with no size cap (see the
counterexample). -/
theorem loop_batches_bounded (cfg : BatchingConfig) (steps : List IterStep)
    (queue : List Pending) (t : Rat) (b : List Pending)
    (hmem : (t, b) ∈ (executorRun cfg queue steps).1) :
    b.length ≤ cfg.max_batch_size ∧
    ((executorRun cfg queue steps).1.flatMap fun tb => tb.2) ++
        (executorRun cfg queue steps).2
      = queue ++ steps.flatMap fun s => s.arrivals :=
  ⟨executorRun_batch_le cfg steps queue t b hmem,
   executorRun_partition cfg steps queue⟩

/-- Claim C9 witness: one flushed iteration under the default config
detaches the singleton batch, within the bound. -/
theorem loop_batches_bounded_witness :
    ([({} : Pending)]).length ≤ ({} : BatchingConfig).max_batch_size ∧
    ((executorRun {} [] [{ arrivals := [{}], now := 0 }]).1.flatMap
        fun tb => tb.2) ++
        (executorRun {} [] [{ arrivals := [{}], now := 0 }]).2
      = [] ++ ([{ arrivals := [{}], now := 0 }] : List IterStep).flatMap
          fun s => s.arrivals :=
  loop_batches_bounded {} [{ arrivals := [{}], now := 0 }] [] 0 [{}]
    (by simp [executorRun, flushCond])

/-- Claim C9 counterexample: with max_batch_size 1, min_batch_size 10
and max_wait_ms 1000, two requests that arrive without triggering a
flush are drained at shutdown as a single dispatched batch of size 2,
violating the claimed bound for the drain path. -/
theorem drain_exceeds_max_counterexample :
    ¬ ∀ b ∈ dispatchedBatches
        { enabled := true, max_batch_size := 1, min_batch_size := 10,
          max_wait_ms := 1000, adaptive_sizing := true }
        [{ arrivals := [{ request := { request_id := "r1" } },
                        { request := { request_id := "r2" } }], now := 0 }],
      b.length ≤
        ({ enabled := true, max_batch_size := 1, min_batch_size := 10,
           max_wait_ms := 1000,
           adaptive_sizing := true } : BatchingConfig).max_batch_size := by
  intro hall
  have hfl : Rat.floor (0 : Rat) = 0 := by
    have h0 : Rat.floor (0 : Rat) = ⌊(0 : Rat)⌋ := rfl
    rw [h0]
    exact Int.floor_zero
  have hb : dispatchedBatches
      { enabled := true, max_batch_size := 1, min_batch_size := 10,
        max_wait_ms := 1000, adaptive_sizing := true }
      [{ arrivals := [{ request := { request_id := "r1" } },
                      { request := { request_id := "r2" } }], now := 0 }] =
      [[{ request := { request_id := "r1" } },
        { request := { request_id := "r2" } }]] := by
    simp [dispatchedBatches, executorRun, flushCond, shouldFlushBatch, hfl]
  have h2 := hall [{ request := { request_id := "r1" } },
                   { request := { request_id := "r2" } }]
    (by rw [hb]; exact List.mem_singleton_self _)
  simp at h2

lemma insertGrouped_homog (p : Pending) (gs : Groups)
    (h : ∀ g ∈ gs, ∀ x ∈ g.2, x.request.model_name = g.1) :
    ∀ g ∈ insertGrouped p gs, ∀ x ∈ g.2, x.request.model_name = g.1 := by
  induction gs with
  | nil =>
    intro g hg x hx
    simp only [insertGrouped, List.mem_singleton] at hg
    subst hg
    simp only [List.mem_singleton] at hx
    subst hx
    rfl
  | cons g0 rest ih =>
    intro g hg x hx
    by_cases hk : g0.1 = p.request.model_name
    · simp only [insertGrouped, if_pos hk] at hg
      rcases List.mem_cons.mp hg with h1 | h1
      · subst h1
        simp only [List.mem_append, List.mem_singleton] at hx
        rcases hx with h2 | h2
        · exact h g0 (List.mem_cons_self g0 rest) x h2
        · subst h2
          exact hk.symm
      · exact h g (List.mem_cons_of_mem g0 h1) x hx
    · simp only [insertGrouped, if_neg hk] at hg
      rcases List.mem_cons.mp hg with h1 | h1
      · subst h1
        exact h g (List.mem_cons_self g rest) x hx
      · exact ih (fun g2 hg2 => h g2 (List.mem_cons_of_mem g0 hg2)) g h1 x hx

lemma insertGrouped_keys (p : Pending) (gs : Groups) :
    (insertGrouped p gs).map Prod.fst =
      if p.request.model_name ∈ gs.map Prod.fst then gs.map Prod.fst
      else gs.map Prod.fst ++ [p.request.model_name] := by
  induction gs with
  | nil => simp [insertGrouped]
  | cons g rest ih =>
    by_cases hk : g.1 = p.request.model_name
    · simp [insertGrouped, hk]
    · simp only [insertGrouped, if_neg hk, List.map_cons, ih, List.mem_cons]
      by_cases hm : p.request.model_name ∈ rest.map Prod.fst
      · rw [if_pos hm, if_pos (Or.inr hm)]
      · rw [if_neg hm,
          if_neg (fun h => h.elim (fun h1 => hk h1.symm) hm)]
        simp

lemma insertGrouped_keys_nodup (p : Pending) (gs : Groups)
    (h : (gs.map Prod.fst).Nodup) :
    ((insertGrouped p gs).map Prod.fst).Nodup := by
  rw [insertGrouped_keys]
  by_cases hm : p.request.model_name ∈ gs.map Prod.fst
  · simpa [hm] using h
  · rw [if_neg hm]
    refine List.Nodup.append h (List.nodup_singleton _) ?_
    intro a ha hb
    simp only [List.mem_singleton] at hb
    subst hb
    exact hm ha

lemma filter_keys_eq_nil (m : String) (gs : Groups)
    (h : m ∉ gs.map Prod.fst) :
    gs.filter (fun g => g.1 == m) = [] := by
  induction gs with
  | nil => rfl
  | cons g rest ih =>
    simp only [List.map_cons, List.mem_cons] at h
    push_neg at h
    rw [List.filter_cons, if_neg (by simp [Ne.symm h.1])]
    exact ih h.2

lemma insertGrouped_filter_ne (p : Pending) (gs : Groups) (m : String)
    (hm : m ≠ p.request.model_name) :
    (insertGrouped p gs).filter (fun g => g.1 == m) =
      gs.filter (fun g => g.1 == m) := by
  induction gs with
  | nil => simp [insertGrouped, Ne.symm hm]
  | cons g rest ih =>
    by_cases hk : g.1 = p.request.model_name
    · simp only [insertGrouped, if_pos hk]
      rw [List.filter_cons, List.filter_cons]
      have hne : ¬ (g.1 == m) = true := by
        simp [hk]
        exact Ne.symm hm
      rw [if_neg hne, if_neg hne]
    · simp only [insertGrouped, if_neg hk]
      rw [List.filter_cons, List.filter_cons, ih]

lemma insertGrouped_filter_eq (p : Pending) (gs : Groups)
    (hnd : (gs.map Prod.fst).Nodup) :
    ((insertGrouped p gs).filter
        (fun g => g.1 == p.request.model_name)).flatMap (fun g => g.2)
      = ((gs.filter (fun g => g.1 == p.request.model_name)).flatMap
          fun g => g.2) ++ [p] := by
  induction gs with
  | nil => simp [insertGrouped]
  | cons g rest ih =>
    simp only [List.map_cons, List.nodup_cons] at hnd
    by_cases hk : g.1 = p.request.model_name
    · simp only [insertGrouped, if_pos hk]
      rw [List.filter_cons, if_pos (by simp [hk]),
        List.filter_cons, if_pos (by simp [hk])]
      have hrest : rest.filter (fun g => g.1 == p.request.model_name) = [] := by
        apply filter_keys_eq_nil
        rw [← hk]
        exact hnd.1
      rw [hrest]
      simp
    · simp only [insertGrouped, if_neg hk]
      rw [List.filter_cons, List.filter_cons]
      by_cases hgm : (g.1 == p.request.model_name) = true
      · exact absurd (by simpa using hgm) hk
      · rw [if_neg hgm, if_neg hgm]
        exact ih hnd.2

lemma groupByModel_inv (batch : List Pending) :
    ((groupByModel batch).map Prod.fst).Nodup ∧
    (∀ g ∈ groupByModel batch, ∀ x ∈ g.2, x.request.model_name = g.1) ∧
    ∀ m, ((groupByModel batch).filter (fun g => g.1 == m)).flatMap
        (fun g => g.2)
      = batch.filter (fun x => x.request.model_name == m) := by
  suffices h : ∀ (batch : List Pending) (gs : Groups),
      (gs.map Prod.fst).Nodup →
      (∀ g ∈ gs, ∀ x ∈ g.2, x.request.model_name = g.1) →
      (((batch.foldl (fun gs p => insertGrouped p gs) gs).map
          Prod.fst).Nodup ∧
       (∀ g ∈ batch.foldl (fun gs p => insertGrouped p gs) gs,
          ∀ x ∈ g.2, x.request.model_name = g.1) ∧
       ∀ m, ((batch.foldl (fun gs p => insertGrouped p gs) gs).filter
            (fun g => g.1 == m)).flatMap (fun g => g.2)
          = ((gs.filter (fun g => g.1 == m)).flatMap fun g => g.2) ++
            batch.filter (fun x => x.request.model_name == m)) by
    have h2 := h batch [] (by simp) (by simp)
    refine ⟨h2.1, h2.2.1, fun m => ?_⟩
    have h3 := h2.2.2 m
    simpa [groupByModel] using h3
  intro batch
  induction batch with
  | nil =>
    intro gs hnd hhom
    exact ⟨hnd, hhom, fun m => by simp⟩
  | cons p rest ih =>
    intro gs hnd hhom
    have hnd2 := insertGrouped_keys_nodup p gs hnd
    have hhom2 := insertGrouped_homog p gs hhom
    obtain ⟨ha, hb, hc⟩ := ih (insertGrouped p gs) hnd2 hhom2
    refine ⟨ha, hb, fun m => ?_⟩
    rw [List.foldl_cons, hc m]
    by_cases hm : m = p.request.model_name
    · subst hm
      rw [insertGrouped_filter_eq p gs hnd]
      rw [List.filter_cons, if_pos (by simp)]
      simp [List.append_assoc]
    · rw [insertGrouped_filter_ne p gs m hm]
      rw [List.filter_cons,
        if_neg (by simp; exact fun h => absurd h.symm hm)]

lemma filter_flatMap_of_homog (gs : Groups) (m : String)
    (h : ∀ g ∈ gs, ∀ x ∈ g.2, x.request.model_name = g.1) :
    ((gs.flatMap fun g => g.2).filter fun x => x.request.model_name == m)
      = (gs.filter (fun g => g.1 == m)).flatMap fun g => g.2 := by
  induction gs with
  | nil => rfl
  | cons g rest ih =>
    rw [List.flatMap_cons, List.filter_append,
      ih (fun g2 hg2 => h g2 (List.mem_cons_of_mem g hg2))]
    by_cases hk : g.1 = m
    · have hself : g.2.filter (fun x => x.request.model_name == m) = g.2 := by
        apply List.filter_eq_self.mpr
        intro x hx
        simp [h g (List.mem_cons_self g rest) x hx, hk]
      rw [hself, List.filter_cons, if_pos (by simp [hk]), List.flatMap_cons]
    · have hnil : g.2.filter (fun x => x.request.model_name == m) = [] := by
        simp only [List.filter_eq_nil_iff]
        intro x hx
        simp [h g (List.mem_cons_self g rest) x hx]
        exact hk
      rw [hnil, List.filter_cons, if_neg (by simp [hk])]
      simp

lemma groups_filter_length_le_one (gs : Groups) (m : String)
    (hnd : (gs.map Prod.fst).Nodup) :
    (gs.filter fun g => g.1 == m).length ≤ 1 := by
  induction gs with
  | nil => simp
  | cons g rest ih =>
    simp only [List.map_cons, List.nodup_cons] at hnd
    rw [List.filter_cons]
    by_cases hk : (g.1 == m) = true
    · rw [if_pos hk]
      have : rest.filter (fun g => g.1 == m) = [] := by
        apply filter_keys_eq_nil
        rw [← show g.1 = m by simpa using hk]
        exact hnd.1
      simp [this]
    · rw [if_neg hk]
      exact ih hnd.2

lemma perm_eq_of_short {α : Type} (l l2 : List α) (h : List.Perm l l2)
    (hl : l.length ≤ 1) : l = l2 := by
  cases l with
  | nil => exact (h.nil_eq)
  | cons a rest =>
    cases rest with
    | nil => exact List.singleton_perm.mp h
    | cons b rest2 => simp at hl

/-- Claim C4 (corrected): process_batch partitions the detached batch
into model groups and executes exactly the batch (a permutation), and
per model the execution order equals the arrival order — but the
iteration order of the groups is the std::unordered_map's unspecified
order (any permutation of the first-seen grouping), not first-seen
order. -/
theorem per_model_dispatch_order (gorder : Groups → Groups)
    (Hg : ∀ gs : Groups, List.Perm (gorder gs) gs) (runE : RunReg)
    (dur : DurFn) (clock : Rat) (batch : List Pending) (m : String) :
    List.Perm ((processBatch gorder runE dur clock batch).map Prod.fst)
      batch ∧
    ((processBatch gorder runE dur clock batch).map Prod.fst).filter
        (fun x => x.request.model_name == m)
      = batch.filter (fun x => x.request.model_name == m) := by
  obtain ⟨hnd, hhom, hfil⟩ := groupByModel_inv batch
  refine ⟨processBatch_fst_perm gorder Hg runE dur clock batch, ?_⟩
  rw [processBatch_map_fst]
  have hhom2 : ∀ g ∈ gorder (groupByModel batch), ∀ x ∈ g.2,
      x.request.model_name = g.1 :=
    fun g hg => hhom g ((Hg (groupByModel batch)).subset hg)
  rw [filter_flatMap_of_homog _ m hhom2]
  have hpf : List.Perm
      ((gorder (groupByModel batch)).filter fun g => g.1 == m)
      ((groupByModel batch).filter fun g => g.1 == m) :=
    (Hg (groupByModel batch)).filter _
  have heq : ((gorder (groupByModel batch)).filter fun g => g.1 == m)
      = (groupByModel batch).filter fun g => g.1 == m := by
    refine perm_eq_of_short _ _ hpf ?_
    rw [hpf.length_eq]
    exact groups_filter_length_le_one _ m hnd
  rw [heq, hfil]

/-- Claim C4 witness: identity group order on a two-model batch. -/
theorem per_model_dispatch_order_witness :
    List.Perm ((processBatch id (fun _ => .ok {}) (fun _ => 0) 0
        [{ request := { model_name := "a" } },
         { request := { model_name := "b" } }]).map Prod.fst)
      [{ request := { model_name := "a" } },
       { request := { model_name := "b" } }] ∧
    ((processBatch id (fun _ => .ok {}) (fun _ => 0) 0
        [{ request := { model_name := "a" } },
         { request := { model_name := "b" } }]).map Prod.fst).filter
        (fun x => x.request.model_name == "a")
      = ([{ request := { model_name := "a" } },
          { request := { model_name := "b" } }] : List Pending).filter
          (fun x => x.request.model_name == "a") :=
  per_model_dispatch_order id (fun gs => List.Perm.refl gs)
    (fun _ => .ok {}) (fun _ => 0) 0
    [{ request := { model_name := "a" } },
     { request := { model_name := "b" } }] "a"

/-- Claim C4 counterexample: reversing the group list is a permutation
of the first-seen grouping — an admissible unordered_map iteration
order — and under it the batch [a-request, b-request] executes model
"b" before model "a": the group order is not first-seen order. -/
theorem group_order_not_first_seen_counterexample :
    List.Perm
      (List.reverse (groupByModel
        [{ request := { model_name := "a" } },
         { request := { model_name := "b" } }]))
      (groupByModel
        [{ request := { model_name := "a" } },
         { request := { model_name := "b" } }]) ∧
    ((processBatch List.reverse (fun _ => .ok {}) (fun _ => 0) 0
        [{ request := { model_name := "a" } },
         { request := { model_name := "b" } }]).map
        fun x => x.1.request.model_name) = ["b", "a"] ∧
    (["b", "a"] : List String) ≠ ["a", "b"] := by
  refine ⟨List.reverse_perm _, ?_, by decide⟩
  rfl

end OnnxServer
